import Mathlib

/-!
Shallow embedding of the `icndb` Rust client library (src/src/lib.rs and
src/src/error.rs) together with proofs about its request construction,
response decoding, HTML-entity unescaping and error taxonomy.

External collaborators are modelled by their observable outcomes:
the hyper transport call is an `Except HyperError HttpResponse`, reading the
body to a string is an `Except IoError String`, and `serde_json::from_str`
for the two derived `Deserialize` structs is embedded as an executable JSON
parser plus a field-wise deserializer (`from_str`).
-/

namespace Icndb

/-- Model of `hyper::Error`: only its identity matters here. -/
abbrev HyperError := String

/-- Model of `std::io::Error`: only its identity matters here. -/
abbrev IoError := String

/-- Mirrors `ErrorKind` in src/src/error.rs.  The Rust `IO` variant is
spelled `Io` here. -/
inductive ErrorKind where
  | Api
  | Io
  | Network
deriving DecidableEq, Repr

/-- The boxed underlying error stored in `Error.cause`.  In the source it is
`Option Box error Error` filled only from `hyper::Error` or `io::Error`. -/
inductive ErrorCause where
  | hyperError (e : HyperError)
  | ioError (e : IoError)
deriving DecidableEq, Repr

/-- Mirrors `struct Error` in src/src/error.rs. -/
structure Error where
  kind : ErrorKind
  cause : Option ErrorCause
deriving DecidableEq, Repr

/-- Mirrors `Error::api()`. -/
def Error.api : Error :=
  { kind := ErrorKind.Api, cause := none }

/-- Mirrors `impl From hyper Error for Error`. -/
def Error.fromHyperError (e : HyperError) : Error :=
  { kind := ErrorKind.Network, cause := some (ErrorCause.hyperError e) }

/-- Mirrors `impl From io Error for Error`. -/
def Error.fromIoError (e : IoError) : Error :=
  { kind := ErrorKind.Io, cause := some (ErrorCause.ioError e) }

/-- Mirrors `error::Error::description` in src/src/error.rs. -/
def Error.description (e : Error) : String :=
  match e.kind with
  | ErrorKind.Api => "ICNDB returned an error"
  | ErrorKind.Io => "unable to decode response"
  | ErrorKind.Network => "unable to contact ICNDB"

/-- Mirrors `error::Error::cause` in src/src/error.rs. -/
def Error.causeAccessor (e : Error) : Option ErrorCause :=
  match e.cause with
  | some cause => some cause
  | none => none

/-- Mirrors `struct ApiResponse` (the wire payload).  `id` is `u64` in the
source; the deserializer below only produces values below `2 ^ 64`. -/
structure ApiResponse where
  id : Nat
  joke : String
  categories : List String
deriving DecidableEq, Repr

/-- Mirrors `struct ApiResponseWrapper`, the redundant envelope. -/
structure ApiResponseWrapper where
  value : ApiResponse
deriving DecidableEq, Repr

/-- Mirrors `pub struct Joke`. -/
structure Joke where
  id : Nat
  content : String
  categories : List String
deriving DecidableEq, Repr

/-- Mirrors `impl From ApiResponse for Joke`. -/
def Joke.fromApiResponse (response : ApiResponse) : Joke :=
  { id := response.id
    content := response.joke
    categories := response.categories }

/-! ## The unescaping step

`unescape_content` uses Rust `str::contains` and `str::replace` with the
pattern `&quot;`.  Both are embedded on `List Char`: `isPref` is slice
`starts_with`, `hasSubstr` is `contains`, and `replaceQuot` is
left-to-right non-overlapping `replace` of the fixed pattern by `"`. -/

/-- The six characters of the HTML entity `&quot;`. -/
def quotEntity : List Char := ['&', 'q', 'u', 'o', 't', ';']

/-- Boolean prefix test, mirroring `str::starts_with` on char lists. -/
def isPref : List Char → List Char → Bool
  | [], _ => true
  | _ :: _, [] => false
  | a :: as, b :: bs => a == b && isPref as bs

/-- Boolean substring test, mirroring `str::contains` on char lists. -/
def hasSubstr (p : List Char) : List Char → Bool
  | [] => p.isEmpty
  | c :: cs => isPref p (c :: cs) || hasSubstr p cs

/-- Left-to-right, non-overlapping replacement of `&quot;` by `"`,
mirroring `str::replace` with that fixed pattern. -/
def replaceQuot : List Char → List Char
  | '&' :: 'q' :: 'u' :: 'o' :: 't' :: ';' :: rest => '"' :: replaceQuot rest
  | c :: cs => c :: replaceQuot cs
  | [] => []

/-- String-level `joke.contains` with pattern `&quot;`. -/
def containsQuot (s : String) : Bool := hasSubstr quotEntity s.toList

/-- String-level `joke.replace` of `&quot;` by a double quote. -/
def replaceQuotStr (s : String) : String := (replaceQuot s.toList).asString

/-- Mirrors `unescape_content` in src/src/lib.rs. -/
def unescape_content (response : ApiResponse) : Joke :=
  if containsQuot response.joke then
    { id := response.id
      content := replaceQuotStr response.joke
      categories := response.categories }
  else
    Joke.fromApiResponse response

/-! ## Request construction

`PROTOCOL` is selected by the `ssl` cargo feature at build time; it is
modelled by a `Bool` fixed when the client is constructed.  The four URL
builders transcribe the four `format!` templates of `ApiClient`. -/

/-- The `cfg(feature = ssl)` selection of the protocol scheme. -/
def PROTOCOL (ssl : Bool) : String :=
  if ssl then "https" else "http"

/-- URL built by `ApiClient::next`. -/
def next_url (ssl : Bool) : String :=
  PROTOCOL ssl ++ "://api.icndb.com/jokes/random"

/-- URL built by `ApiClient::next_with_names`. -/
def next_with_names_url (ssl : Bool) (first last : String) : String :=
  PROTOCOL ssl ++ "://api.icndb.com/jokes/random?firstName=" ++ first
    ++ "&lastName=" ++ last

/-- URL built by `ApiClient::get_by_id`. -/
def get_by_id_url (ssl : Bool) (id : Nat) : String :=
  PROTOCOL ssl ++ "://api.icndb.com/jokes/" ++ toString id

/-- URL built by `ApiClient::get_by_id_with_names`. -/
def get_by_id_with_names_url (ssl : Bool) (id : Nat) (first last : String) :
    String :=
  PROTOCOL ssl ++ "://api.icndb.com/jokes/" ++ toString id
    ++ "?firstName=" ++ first ++ "&lastName=" ++ last

/-! ## The JSON layer

`serde_json::from_str` for `ApiResponseWrapper` is an external dependency;
it is embedded as a small executable JSON parser (values, with the usual
string escapes and number grammar) followed by the deserializer that the
two `derive(Deserialize)` structs denote: fields may come in any order,
unknown fields are ignored, a missing or duplicate field is an error,
`id` must be a non-negative integer below `2 ^ 64`. -/

/-- Generic JSON value.  Numbers keep their sign, integer part and
whether the token was a plain integer (no fraction, no exponent). -/
inductive Json where
  | null
  | bool (b : Bool)
  | num (neg : Bool) (intPart : Nat) (isInt : Bool)
  | str (s : String)
  | arr (elems : List Json)
  | obj (members : List (String × Json))
deriving Repr

/-- The opening-brace character, written by code point. -/
def lbrace : Char := Char.ofNat 123

/-- The closing-brace character, written by code point. -/
def rbrace : Char := Char.ofNat 125

/-- JSON insignificant whitespace. -/
def isJsonWs (c : Char) : Bool :=
  c = ' ' || c = '\t' || c = '\n' || c = '\r'

/-- Drop leading JSON whitespace. -/
def skipWs : List Char → List Char
  | [] => []
  | c :: cs => if isJsonWs c then skipWs cs else c :: cs

/-- Value of a hexadecimal digit. -/
def hexVal? (c : Char) : Option Nat :=
  if '0' ≤ c ∧ c ≤ '9' then some (c.toNat - 48)
  else if 'a' ≤ c ∧ c ≤ 'f' then some (c.toNat - 87)
  else if 'A' ≤ c ∧ c ≤ 'F' then some (c.toNat - 55)
  else none

/-- Largest `u64` value. -/
def u64max : Nat := 18446744073709551615

/-- Parse the optional exponent part of a number and build the token. -/
def parseExpPart (neg : Bool) (n : Nat) (hasFrac : Bool) (s : List Char) :
    Option (Json × List Char) :=
  match s with
  | c :: r =>
    if c = 'e' || c = 'E' then
      let r1 := match r with
        | d :: r' => if d = '+' || d = '-' then r' else d :: r'
        | [] => []
      if (r1.takeWhile Char.isDigit).isEmpty then none
      else some (Json.num neg n false, r1.dropWhile Char.isDigit)
    else some (Json.num neg n (!hasFrac), c :: r)
  | [] => some (Json.num neg n (!hasFrac), [])

/-- Parse a JSON number token starting at `s`. -/
def parseNumber (s : List Char) : Option (Json × List Char) :=
  let (neg, s1) := match s with
    | '-' :: r => (true, r)
    | _ => (false, s)
  let digits := s1.takeWhile Char.isDigit
  let rest := s1.dropWhile Char.isDigit
  if digits.isEmpty then none
  else if 1 < digits.length ∧ digits.head? = some '0' then none
  else
    let n := digits.foldl (fun acc d => acc * 10 + (d.toNat - 48)) 0
    match rest with
    | '.' :: r =>
      if (r.takeWhile Char.isDigit).isEmpty then none
      else parseExpPart neg n true (r.dropWhile Char.isDigit)
    | _ => parseExpPart neg n false rest

mutual

/-- Fuel-indexed parser for one JSON value. -/
def parseValue : Nat → List Char → Option (Json × List Char)
  | 0, _ => none
  | fuel + 1, s =>
    match skipWs s with
    | [] => none
    | c :: cs =>
      if c = 'n' then
        match cs with
        | 'u' :: 'l' :: 'l' :: r => some (Json.null, r)
        | _ => none
      else if c = 't' then
        match cs with
        | 'r' :: 'u' :: 'e' :: r => some (Json.bool true, r)
        | _ => none
      else if c = 'f' then
        match cs with
        | 'a' :: 'l' :: 's' :: 'e' :: r => some (Json.bool false, r)
        | _ => none
      else if c = '"' then
        (parseStringRest fuel cs).map fun p => (Json.str p.1.asString, p.2)
      else if c = '[' then
        match skipWs cs with
        | ']' :: r => some (Json.arr [], r)
        | r => (parseElems fuel r).map fun p => (Json.arr p.1, p.2)
      else if c = lbrace then
        match skipWs cs with
        | d :: r =>
          if d = rbrace then some (Json.obj [], r)
          else (parseMembers fuel (d :: r)).map fun p => (Json.obj p.1, p.2)
        | [] => none
      else if c = '-' || c.isDigit then parseNumber (c :: cs)
      else none

/-- Fuel-indexed parser for the elements of a non-empty array. -/
def parseElems : Nat → List Char → Option (List Json × List Char)
  | 0, _ => none
  | fuel + 1, s =>
    match parseValue fuel s with
    | none => none
    | some (v, r) =>
      match skipWs r with
      | ',' :: r' => (parseElems fuel r').map fun p => (v :: p.1, p.2)
      | ']' :: r' => some ([v], r')
      | _ => none

/-- Fuel-indexed parser for the members of a non-empty object. -/
def parseMembers : Nat → List Char → Option (List (String × Json) × List Char)
  | 0, _ => none
  | fuel + 1, s =>
    match skipWs s with
    | '"' :: cs =>
      match parseStringRest fuel cs with
      | none => none
      | some (key, r) =>
        match skipWs r with
        | ':' :: r' =>
          match parseValue fuel r' with
          | none => none
          | some (v, r2) =>
            match skipWs r2 with
            | d :: r3 =>
              if d = ',' then
                (parseMembers fuel r3).map fun p =>
                  ((key.asString, v) :: p.1, p.2)
              else if d = rbrace then some ([(key.asString, v)], r3)
              else none
            | [] => none
        | _ => none
    | _ => none

/-- Fuel-indexed parser for the rest of a string literal, after the
opening quote, handling the JSON escape sequences. -/
def parseStringRest : Nat → List Char → Option (List Char × List Char)
  | 0, _ => none
  | fuel + 1, s =>
    match s with
    | [] => none
    | c :: cs =>
      if c = '"' then some ([], cs)
      else if c = '\\' then
        match cs with
        | [] => none
        | e :: cs' =>
          if e = '"' then
            (parseStringRest fuel cs').map fun p => ('"' :: p.1, p.2)
          else if e = '\\' then
            (parseStringRest fuel cs').map fun p => ('\\' :: p.1, p.2)
          else if e = '/' then
            (parseStringRest fuel cs').map fun p => ('/' :: p.1, p.2)
          else if e = 'b' then
            (parseStringRest fuel cs').map fun p => (Char.ofNat 8 :: p.1, p.2)
          else if e = 'f' then
            (parseStringRest fuel cs').map fun p => (Char.ofNat 12 :: p.1, p.2)
          else if e = 'n' then
            (parseStringRest fuel cs').map fun p => ('\n' :: p.1, p.2)
          else if e = 'r' then
            (parseStringRest fuel cs').map fun p => ('\r' :: p.1, p.2)
          else if e = 't' then
            (parseStringRest fuel cs').map fun p => ('\t' :: p.1, p.2)
          else if e = 'u' then
            match cs' with
            | h1 :: h2 :: h3 :: h4 :: rest =>
              match hexVal? h1, hexVal? h2, hexVal? h3, hexVal? h4 with
              | some a, some b, some c2, some d =>
                (parseStringRest fuel rest).map fun p =>
                  (Char.ofNat (a * 4096 + b * 256 + c2 * 16 + d) :: p.1, p.2)
              | _, _, _, _ => none
            | _ => none
          else none
      else if c.toNat < 32 then none
      else (parseStringRest fuel cs).map fun p => (c :: p.1, p.2)

end

/-- Parse a complete JSON document: one value, then only whitespace. -/
def parseJson (s : String) : Option Json :=
  let cs := s.toList
  match parseValue (2 * cs.length + 4) cs with
  | some (v, rest) => if (skipWs rest).isEmpty then some v else none
  | none => none

/-- Look up a mandatory field; a duplicate or missing field is an error,
as in the derived serde deserializer. -/
def getField (members : List (String × Json)) (key : String) : Option Json :=
  match members.filter (fun m => m.1 == key) with
  | [kv] => some kv.2
  | _ => none

/-- Deserialize a `u64` field. -/
def deserU64 : Json → Option Nat
  | Json.num neg n isInt => if !neg && isInt && decide (n ≤ u64max) then some n else none
  | _ => none

/-- Deserialize a string field. -/
def deserString : Json → Option String
  | Json.str s => some s
  | _ => none

/-- Deserialize an array-of-strings field. -/
def deserStringList : Json → Option (List String)
  | Json.arr xs => xs.mapM deserString
  | _ => none

/-- The derived deserializer of `ApiResponse`. -/
def deserApiResponse (j : Json) : Option ApiResponse :=
  match j with
  | Json.obj ms => do
    let idJ ← getField ms "id"
    let id ← deserU64 idJ
    let jokeJ ← getField ms "joke"
    let joke ← deserString jokeJ
    let catJ ← getField ms "categories"
    let categories ← deserStringList catJ
    some { id := id, joke := joke, categories := categories }
  | _ => none

/-- The derived deserializer of `ApiResponseWrapper`. -/
def deserWrapper (j : Json) : Option ApiResponseWrapper :=
  match j with
  | Json.obj ms => do
    let v ← getField ms "value"
    let value ← deserApiResponse v
    some { value := value }
  | _ => none

/-- Embedding of `serde_json::from_str` at type `ApiResponseWrapper`. -/
def from_str (s : String) : Option ApiResponseWrapper :=
  (parseJson s).bind deserWrapper

/-! ## The response pipeline -/

/-- Model of `hyper::client::Response`: reading the body to a string
either yields the text or an `io::Error`. -/
structure HttpResponse where
  read_to_string : Except IoError String

/-- Mirrors `read_response` in src/src/lib.rs: `?` on the transport result
maps a `hyper::Error` to a `Network`-kind error, `?` on `read_to_string`
maps an `io::Error` to an `Io`-kind error, and a parse failure becomes
`Error::api()`. -/
def read_response (response : Except HyperError HttpResponse) :
    Except Error ApiResponseWrapper :=
  match response with
  | Except.error e => Except.error (Error.fromHyperError e)
  | Except.ok resp =>
    match resp.read_to_string with
    | Except.error e => Except.error (Error.fromIoError e)
    | Except.ok buf =>
      match from_str buf with
      | some result => Except.ok result
      | none => Except.error Error.api

/-- Mirrors `unwrap_response` in src/src/lib.rs. -/
def unwrap_response (response : Except Error ApiResponseWrapper) :
    Except Error Joke :=
  response.map fun res => unescape_content res.value

/-! ## The client

The hyper client is modelled by its observable behaviour: a function from
the request URL to the transport outcome.  The build-time `ssl` feature is
a flag fixed when the client is constructed. -/

/-- Mirrors `pub struct ApiClient`. -/
structure ApiClient where
  send : String → Except HyperError HttpResponse
  ssl : Bool

/-- Mirrors `ApiClient::execute_request`. -/
def ApiClient.execute_request (c : ApiClient) (url : String) :
    Except Error ApiResponseWrapper :=
  read_response (c.send url)

/-- Mirrors `ApiClient::next`. -/
def ApiClient.next (c : ApiClient) : Except Error Joke :=
  unwrap_response (c.execute_request (next_url c.ssl))

/-- Mirrors `ApiClient::next_with_names`. -/
def ApiClient.next_with_names (c : ApiClient) (first last : String) :
    Except Error Joke :=
  unwrap_response (c.execute_request (next_with_names_url c.ssl first last))

/-- Mirrors `ApiClient::get_by_id`. -/
def ApiClient.get_by_id (c : ApiClient) (id : Nat) : Except Error Joke :=
  unwrap_response (c.execute_request (get_by_id_url c.ssl id))

/-- Mirrors `ApiClient::get_by_id_with_names`. -/
def ApiClient.get_by_id_with_names (c : ApiClient) (id : Nat)
    (first last : String) : Except Error Joke :=
  unwrap_response
    (c.execute_request (get_by_id_with_names_url c.ssl id first last))

/-! ## Lemmas about the unescaping step -/

theorem replaceQuot_nil : replaceQuot [] = [] := rfl

/-- A list on which the pattern test succeeds starts with the entity. -/
theorem isPref_quot_shape :
    ∀ s : List Char, isPref quotEntity s = true →
      ∃ rest, s = '&' :: 'q' :: 'u' :: 'o' :: 't' :: ';' :: rest := by
  intro s h
  match s with
  | [] => simp [quotEntity, isPref] at h
  | [_] => simp [quotEntity, isPref] at h
  | [_, _] => simp [quotEntity, isPref] at h
  | [_, _, _] => simp [quotEntity, isPref] at h
  | [_, _, _, _] => simp [quotEntity, isPref] at h
  | [_, _, _, _, _] => simp [quotEntity, isPref] at h
  | c1 :: c2 :: c3 :: c4 :: c5 :: c6 :: rest =>
    simp only [quotEntity, isPref, Bool.and_eq_true, beq_iff_eq] at h
    obtain ⟨h1, h2, h3, h4, h5, h6, -⟩ := h
    subst h1; subst h2; subst h3; subst h4; subst h5; subst h6
    exact ⟨rest, rfl⟩

/-- A failed pattern test refutes the entity-shaped decomposition. -/
theorem not_quot_shape_of_isPref_false (c : Char) (cs : List Char)
    (h : isPref quotEntity (c :: cs) = false) :
    ∀ rest, c = '&' → cs = 'q' :: 'u' :: 'o' :: 't' :: ';' :: rest → False := by
  intro rest hc hcs
  subst hc
  subst hcs
  simp [quotEntity, isPref] at h

theorem replaceQuot_cons_pos (c : Char) (cs : List Char)
    (h : isPref quotEntity (c :: cs) = true) :
    replaceQuot (c :: cs) = '"' :: replaceQuot (cs.drop 5) := by
  obtain ⟨rest, heq⟩ := isPref_quot_shape (c :: cs) h
  injection heq with hc hcs
  subst hc
  subst hcs
  rfl

theorem replaceQuot_cons_neg (c : Char) (cs : List Char)
    (h : isPref quotEntity (c :: cs) = false) :
    replaceQuot (c :: cs) = c :: replaceQuot cs :=
  replaceQuot.eq_2 c cs (not_quot_shape_of_isPref_false c cs h)

/-- If the entity does not occur, replacement is the identity. -/
theorem replaceQuot_of_not_hasSubstr :
    ∀ s : List Char, hasSubstr quotEntity s = false → replaceQuot s = s := by
  intro s
  induction s with
  | nil => intro _; exact replaceQuot_nil
  | cons c cs ih =>
    intro h
    simp only [hasSubstr, Bool.or_eq_false_iff] at h
    rw [replaceQuot_cons_neg c cs h.1, ih h.2]

/-- A pattern free of the double-quote character that is a prefix of a
replacement result was already a prefix of the input. -/
theorem isPref_replaceQuot_transfer :
    ∀ q : List Char, (∀ x ∈ q, x ≠ '"') →
      ∀ t : List Char, isPref q (replaceQuot t) = true → isPref q t = true := by
  intro q
  induction q with
  | nil =>
    intro _ t _
    simp [isPref]
  | cons x q' ih =>
    intro hq t hpre
    cases t with
    | nil =>
      rw [replaceQuot_nil] at hpre
      simp [isPref] at hpre
    | cons c cs =>
      cases hp : isPref quotEntity (c :: cs) with
      | true =>
        rw [replaceQuot_cons_pos c cs hp] at hpre
        simp only [isPref, Bool.and_eq_true, beq_iff_eq] at hpre
        exact absurd hpre.1 (hq x (List.mem_cons_self x q'))
      | false =>
        rw [replaceQuot_cons_neg c cs hp] at hpre
        simp only [isPref, Bool.and_eq_true, beq_iff_eq] at hpre
        have h2 := ih (fun y hy => hq y (List.mem_cons_of_mem x hy)) cs hpre.2
        simp [isPref, hpre.1, h2]

/-- Fuel-indexed core of `hasSubstr_replaceQuot`. -/
theorem hasSubstr_replaceQuot_aux :
    ∀ (n : Nat) (s : List Char), s.length ≤ n →
      hasSubstr quotEntity (replaceQuot s) = false := by
  intro n
  induction n with
  | zero =>
    intro s hs
    have hnil : s = [] := List.eq_nil_of_length_eq_zero (Nat.le_zero.mp hs)
    subst hnil
    simp [replaceQuot_nil, hasSubstr, quotEntity]
  | succ n ih =>
    intro s hs
    cases s with
    | nil => simp [replaceQuot_nil, hasSubstr, quotEntity]
    | cons c cs =>
      have hlen : cs.length ≤ n := by
        simp only [List.length_cons] at hs
        omega
      cases hp : isPref quotEntity (c :: cs) with
      | true =>
        rw [replaceQuot_cons_pos c cs hp]
        have hdrop : (cs.drop 5).length ≤ n := by
          simp only [List.length_drop]
          omega
        have hrec := ih (cs.drop 5) hdrop
        simp only [hasSubstr, hrec, Bool.or_false]
        simp [quotEntity, isPref]
      | false =>
        rw [replaceQuot_cons_neg c cs hp]
        have hrec := ih cs hlen
        simp only [hasSubstr, hrec, Bool.or_false]
        cases hq : isPref quotEntity (c :: replaceQuot cs) with
        | false => rfl
        | true =>
          exfalso
          have hq' := hq
          simp only [quotEntity, isPref, Bool.and_eq_true, beq_iff_eq] at hq'
          obtain ⟨hc, htl⟩ := hq'
          have h2 := isPref_replaceQuot_transfer ['q', 'u', 'o', 't', ';']
            (by decide) cs htl
          have hcontra : isPref quotEntity (c :: cs) = true := by
            simp [quotEntity, isPref, ← hc, h2]
          rw [hp] at hcontra
          exact Bool.noConfusion hcontra

/-- The replacement result never contains the entity again: the
replacement character does not occur in the pattern. -/
theorem hasSubstr_replaceQuot (s : List Char) :
    hasSubstr quotEntity (replaceQuot s) = false :=
  hasSubstr_replaceQuot_aux s.length s (Nat.le_refl _)

/-- List-level idempotence of the replacement. -/
theorem replaceQuot_idem (s : List Char) :
    replaceQuot (replaceQuot s) = replaceQuot s :=
  replaceQuot_of_not_hasSubstr _ (hasSubstr_replaceQuot s)

theorem toList_asString (l : List Char) : l.asString.toList = l := rfl

theorem asString_toList (s : String) : s.toList.asString = s := rfl

/-- String-level: the result of unescaping is free of the entity. -/
theorem containsQuot_replaceQuotStr (s : String) :
    containsQuot (replaceQuotStr s) = false := by
  unfold containsQuot replaceQuotStr
  rw [toList_asString]
  exact hasSubstr_replaceQuot _

/-- String-level: unescaping text without the entity is the identity. -/
theorem replaceQuotStr_of_not_contains (s : String)
    (h : containsQuot s = false) : replaceQuotStr s = s := by
  unfold replaceQuotStr
  unfold containsQuot at h
  rw [replaceQuot_of_not_hasSubstr _ h]
  exact asString_toList s

/-- String-level idempotence of the unescaping substitution. -/
theorem replaceQuotStr_idem (s : String) :
    replaceQuotStr (replaceQuotStr s) = replaceQuotStr s := by
  unfold replaceQuotStr
  rw [toList_asString, replaceQuot_idem]

/-- The content of an unescaped joke is always the full substitution of
the wire text, whichever branch `unescape_content` takes. -/
theorem unescape_content_content (r : ApiResponse) :
    (unescape_content r).content = replaceQuotStr r.joke := by
  unfold unescape_content
  cases h : containsQuot r.joke with
  | true => simp [h]
  | false => simp [h, Joke.fromApiResponse, replaceQuotStr_of_not_contains r.joke h]

/-- The content of an unescaped joke never contains the entity. -/
theorem unescape_content_no_entity (r : ApiResponse) :
    containsQuot (unescape_content r).content = false := by
  rw [unescape_content_content]
  exact containsQuot_replaceQuotStr _

/-! ## Generic helpers for the claim theorems -/

theorem string_append_assoc (a b c : String) : a ++ b ++ c = a ++ (b ++ c) :=
  String.ext (by simp [String.data_append, List.append_assoc])

theorem except_ok_or_error (x : Except Error Joke) :
    (∃ j, x = Except.ok j) ∨ (∃ e, x = Except.error e) := by
  cases x with
  | ok j => exact Or.inl ⟨j, rfl⟩
  | error e => exact Or.inr ⟨e, rfl⟩

/-! ## The claims -/

/-- Claim C1: every response body that fails to parse as the envelope
shape decodes to an `Api`-kind error with no cause — never a
`DecodeFailure` (`Io`) or `NetworkFailure` (`Network`) error. -/
theorem c1_parse_failure_yields_api_error (buf : String)
    (h : from_str buf = none) :
    read_response (Except.ok { read_to_string := Except.ok buf }) =
      Except.error { kind := ErrorKind.Api, cause := none } := by
  simp [read_response, h, Error.api]

/-- Witness for C1 at the concrete body `not json`. -/
theorem c1_parse_failure_yields_api_error_witness :
    from_str "not json" = none ∧
    read_response (Except.ok { read_to_string := Except.ok "not json" }) =
      Except.error { kind := ErrorKind.Api, cause := none } :=
  ⟨by decide, c1_parse_failure_yields_api_error "not json" (by decide)⟩

/-- Claim C2: decoding always hands the payload to the unescaping step,
so a successfully returned `Joke` has `content` equal to the wire `joke`
with every `&quot;` replaced by a double quote, and `content` never
contains `&quot;`. -/
theorem c2_unescaping_runs_unconditionally (w : ApiResponseWrapper) :
    unwrap_response (Except.ok w) = Except.ok (unescape_content w.value) ∧
    (unescape_content w.value).content = replaceQuotStr w.value.joke ∧
    containsQuot (unescape_content w.value).content = false :=
  ⟨rfl, unescape_content_content w.value, unescape_content_no_entity w.value⟩

/-- Claim C3: the `&quot;`-to-double-quote substitution is idempotent,
and on text free of the entity it is a no-op. -/
theorem c3_unescape_idempotent (s : String) :
    replaceQuotStr (replaceQuotStr s) = replaceQuotStr s ∧
    (containsQuot s = false → replaceQuotStr s = s) :=
  ⟨replaceQuotStr_idem s, replaceQuotStr_of_not_contains s⟩

/-- Witness for C3 at a concrete already-unescaped text. -/
theorem c3_unescape_idempotent_witness :
    containsQuot "Chuck Norris counted to infinity" = false ∧
    replaceQuotStr "Chuck Norris counted to infinity" =
      "Chuck Norris counted to infinity" :=
  ⟨by decide,
    (c3_unescape_idempotent "Chuck Norris counted to infinity").2 (by decide)⟩

/-- Claim C4: the request builder produces exactly the documented URLs:
the with-names variants append `?firstName=F&lastName=L` verbatim (no
percent-encoding) to the base URL, and the scheme is the build-time
choice between `http` and `https`. -/
theorem c4_request_urls (ssl : Bool) (id : Nat) (first last : String) :
    next_url ssl = PROTOCOL ssl ++ "://api.icndb.com/jokes/random" ∧
    next_with_names_url ssl first last =
      next_url ssl ++ "?firstName=" ++ first ++ "&lastName=" ++ last ∧
    get_by_id_url ssl id =
      PROTOCOL ssl ++ "://api.icndb.com/jokes/" ++ toString id ∧
    get_by_id_with_names_url ssl id first last =
      get_by_id_url ssl id ++ "?firstName=" ++ first ++ "&lastName=" ++ last ∧
    (PROTOCOL ssl = "http" ∨ PROTOCOL ssl = "https") := by
  cases ssl with
  | false => exact ⟨rfl, rfl, rfl, rfl, Or.inl rfl⟩
  | true => exact ⟨rfl, rfl, rfl, rfl, Or.inr rfl⟩

/-- Claim C5: a transport failure maps to a `Network`-kind
(`NetworkFailure`) error wrapping the transport error, a body-read
failure maps to an `Io`-kind (`DecodeFailure`) error wrapping the
read error, and every call yields exactly one outcome — a single
success or a single error, never both. -/
theorem c5_error_mapping_short_circuits :
    (∀ e : HyperError, read_response (Except.error e) =
      Except.error { kind := ErrorKind.Network,
                     cause := some (ErrorCause.hyperError e) }) ∧
    (∀ e : IoError,
      read_response (Except.ok { read_to_string := Except.error e }) =
        Except.error { kind := ErrorKind.Io,
                       cause := some (ErrorCause.ioError e) }) ∧
    (∀ r : Except HyperError HttpResponse,
      (∃ w, read_response r = Except.ok w ∧
        ∀ e, read_response r ≠ Except.error e) ∨
      (∃ e, read_response r = Except.error e ∧
        ∀ w, read_response r ≠ Except.ok w)) := by
  refine ⟨fun e => rfl, fun e => rfl, fun r => ?_⟩
  cases h : read_response r with
  | ok w => exact Or.inl ⟨w, rfl, fun e he => by simp at he⟩
  | error e => exact Or.inr ⟨e, rfl, fun w hw => by simp at hw⟩

/-- Witness for C5 at concrete transport and read failures. -/
theorem c5_error_mapping_short_circuits_witness :
    read_response (Except.error "connection refused") =
      Except.error { kind := ErrorKind.Network,
                     cause := some (ErrorCause.hyperError "connection refused") } ∧
    read_response (Except.ok { read_to_string := Except.error "bad utf8" }) =
      Except.error { kind := ErrorKind.Io,
                     cause := some (ErrorCause.ioError "bad utf8") } :=
  ⟨c5_error_mapping_short_circuits.1 "connection refused",
    c5_error_mapping_short_circuits.2.1 "bad utf8"⟩

/-- The concrete envelope text of the spec's decoding example. -/
def envelopeSample : String :=
  "\x7b\"value\":\x7b\"id\":1,\"joke\":\"Chuck Norris said &quot;hi&quot;\",\"categories\":[]\x7d\x7d"

/-- Claim C6: the concrete envelope decodes to the joke with id 1,
unescaped content, and no categories. -/
theorem c6_concrete_envelope_decodes :
    unwrap_response
      (read_response (Except.ok { read_to_string := Except.ok envelopeSample })) =
      Except.ok { id := 1, content := "Chuck Norris said \"hi\"",
                  categories := [] } := by
  rfl

/-- Claim C7: the human-readable description of an error is one fixed
string per kind and never depends on the wrapped cause. -/
theorem c7_description_fixed_per_kind :
    (∀ c, Error.description { kind := ErrorKind.Api, cause := c } =
      "ICNDB returned an error") ∧
    (∀ c, Error.description { kind := ErrorKind.Io, cause := c } =
      "unable to decode response") ∧
    (∀ c, Error.description { kind := ErrorKind.Network, cause := c } =
      "unable to contact ICNDB") ∧
    ∀ e₁ e₂ : Error, e₁.kind = e₂.kind →
      Error.description e₁ = Error.description e₂ := by
  refine ⟨fun _ => rfl, fun _ => rfl, fun _ => rfl, fun e₁ e₂ h => ?_⟩
  unfold Error.description
  rw [h]

/-- Witness for C7: two `Api` errors with different causes share one
description. -/
theorem c7_description_fixed_per_kind_witness :
    Error.description { kind := ErrorKind.Api, cause := none } =
      Error.description { kind := ErrorKind.Api,
                          cause := some (ErrorCause.hyperError "boom") } :=
  c7_description_fixed_per_kind.2.2.2 _ _ rfl

/-- Claim C8: every public operation is total on its model — for every
client behaviour, id and names, it returns either a `Joke` or a typed
`Error`; there is no third outcome. -/
theorem c8_operations_total (c : ApiClient) (id : Nat) (first last : String) :
    ((∃ j, c.next = Except.ok j) ∨ (∃ e, c.next = Except.error e)) ∧
    ((∃ j, c.next_with_names first last = Except.ok j) ∨
      (∃ e, c.next_with_names first last = Except.error e)) ∧
    ((∃ j, c.get_by_id id = Except.ok j) ∨
      (∃ e, c.get_by_id id = Except.error e)) ∧
    ((∃ j, c.get_by_id_with_names id first last = Except.ok j) ∨
      (∃ e, c.get_by_id_with_names id first last = Except.error e)) :=
  ⟨except_ok_or_error _, except_ok_or_error _, except_ok_or_error _,
    except_ok_or_error _⟩

/-- Claim C9: the unescaping step only touches `content`: `id` and
`categories` are returned exactly as they came off the wire. -/
theorem c9_unescape_frame (r : ApiResponse) :
    (unescape_content r).id = r.id ∧
    (unescape_content r).categories = r.categories := by
  unfold unescape_content
  split <;> simp [Joke.fromApiResponse]

/-- Claim C10: `Api` errors are built without a cause, while every
`Network`-kind and `Io`-kind error wraps the underlying transport or
read error as its cause. -/
theorem c10_cause_discipline :
    (Error.api.kind = ErrorKind.Api ∧ Error.api.cause = none) ∧
    (∀ e : HyperError, (Error.fromHyperError e).kind = ErrorKind.Network ∧
      (Error.fromHyperError e).cause = some (ErrorCause.hyperError e)) ∧
    (∀ e : IoError, (Error.fromIoError e).kind = ErrorKind.Io ∧
      (Error.fromIoError e).cause = some (ErrorCause.ioError e)) :=
  ⟨⟨rfl, rfl⟩, fun _ => ⟨rfl, rfl⟩, fun _ => ⟨rfl, rfl⟩⟩

end Icndb
